import Mathlib

/-!
Verification development for the doctym appointment backend.

The embedding models the scheduling core of the service:
times are natural numbers counting minutes; an absolute instant `t`
(a Python `datetime`) has day index `t / 1440`, time of day `t % 1440`
(Python `.time()`), and weekday `t / 1440 % 7` where day 0 is chosen to
be a Monday, matching Python's `datetime.weekday()` convention
(0 = Monday).  A calendar date is its day index.  Database tables are
lists of rows; SQLAlchemy's `.first()` on a filtered query is
`List.find?`, `.all()` is `List.filter`, and the autoincrement primary
key is threaded explicitly.  Columns that carry no scheduling semantics
(qr_code, notes, timestamps, profile data) are omitted.
-/

namespace Doctym

/-- Appointment lifecycle statuses, from app/models/appointment.py. -/
inductive AppointmentStatus where
  | scheduled
  | confirmed
  | in_progress
  | completed
  | cancelled
deriving DecidableEq, Repr

/-- A row of the appointments table (app/models/appointment.py).
Times are minutes since the epoch of the model. -/
structure Appointment where
  id : Nat
  doctor_id : Nat
  patient_id : Nat
  start_time : Nat
  end_time : Nat
  status : AppointmentStatus
deriving DecidableEq, Repr

/-- A row of the working_hours table (app/models/working_hours.py).
start_time, end_time, break_start, break_end are minutes of the day
(Python `time` values); break columns are nullable. -/
structure WorkingHours where
  id : Nat
  doctor_id : Nat
  day_of_week : Nat
  start_time : Nat
  end_time : Nat
  has_break : Bool
  break_start : Option Nat
  break_end : Option Nat
  is_available : Bool
deriving DecidableEq, Repr

/-- A row of the notifications table (app/models/notification.py);
the free-text message column is omitted. -/
structure Notification where
  user_id : Nat
  title : String
  type : String
  appointment_id : Option Nat
deriving DecidableEq, Repr

/-- The fields of a user row that the scheduling core reads. -/
structure User where
  id : Nat
  is_doctor : Bool
deriving DecidableEq, Repr

/-- The database state seen by the scheduling core. -/
structure DB where
  appointments : List Appointment
  working_hours : List WorkingHours
  notifications : List Notification
  next_appointment_id : Nat
  next_working_hours_id : Nat
deriving DecidableEq, Repr

/-- weekday of an absolute minute count; day 0 of the model is a Monday,
so this matches Python datetime.weekday (0 = Monday). -/
def weekday (t : Nat) : Nat := t / 1440 % 7

/-- Python datetime .time(), at minute granularity. -/
def timeOfDay (t : Nat) : Nat := t % 1440

/-- An HTTPException as raised by the routers: status code and detail. -/
structure HError where
  status_code : Nat
  detail : String
deriving DecidableEq, Repr

/-- The appointment-overlap filter of is_time_slot_available
(app/routers/appointments.py lines 79-83), exactly the three-disjunct
boolean expression of the SQLAlchemy query. -/
def appointment_overlaps (a : Appointment) (start_time end_time : Nat) : Bool :=
  (decide (a.start_time ≤ start_time) && decide (start_time < a.end_time)) ||
  (decide (a.start_time < end_time) && decide (end_time ≤ a.end_time)) ||
  (decide (start_time ≤ a.start_time) && decide (a.end_time ≤ end_time))

/-- The working-hours lookup shared by is_time_slot_available and
get_available_slots: first row for the doctor and weekday with
is_available true. -/
def find_working_hours (db : DB) (doctor_id day_of_week : Nat) : Option WorkingHours :=
  db.working_hours.find? (fun w =>
    decide (w.doctor_id = doctor_id) && decide (w.day_of_week = day_of_week) && w.is_available)

/-- Python chained comparison lo <= x <= hi with nullable bounds:
comparing against None raises TypeError (modelled as none), and the
chain short-circuits, so when lo <= x is false the upper bound is never
compared. -/
def chained_between (lo : Option Nat) (x : Nat) (hi : Option Nat) : Option Bool :=
  match lo with
  | none => none
  | some l =>
    if l ≤ x then
      match hi with
      | none => none
      | some h => some (decide (x ≤ h))
    else some false

/-- The break test of is_time_slot_available (appointments.py lines
106-109): when has_break is set, reject when either endpoint of the
proposed interval lies in the CLOSED interval [break_start, break_end].
The Python `or` short-circuits, so the second chained comparison is
evaluated only when the first is false.  Returns none where Python
would raise TypeError (a null break bound with has_break set, a state
create_working_hours refuses to persist). -/
def break_check (working_hours : WorkingHours) (s e : Nat) : Option Bool :=
  if working_hours.has_break then
    match chained_between working_hours.break_start s working_hours.break_end with
    | none => none
    | some true => some true
    | some false => chained_between working_hours.break_start e working_hours.break_end
  else some false

/-- is_time_slot_available (app/routers/appointments.py lines 69-111):
some true = slot admitted, some false = slot rejected, none = the
unreachable TypeError path of the break test. -/
def is_time_slot_available (db : DB) (doctor_id start_time end_time : Nat) : Option Bool :=
  if db.appointments.any (fun a =>
      decide (a.doctor_id = doctor_id) &&
      !decide (a.status = AppointmentStatus.cancelled) &&
      appointment_overlaps a start_time end_time) then
    some false
  else
    match find_working_hours db doctor_id (weekday start_time) with
    | none => some false
    | some working_hours =>
      let appointment_start_time := timeOfDay start_time
      let appointment_end_time := timeOfDay end_time
      if appointment_start_time < working_hours.start_time ∨
          working_hours.end_time < appointment_end_time then
        some false
      else
        match break_check working_hours appointment_start_time appointment_end_time with
        | none => none
        | some true => some false
        | some false => some true

/-- The break-skip condition of the slot loop (working_hours.py lines
200-203): the guard has_break and break_start and break_end is Python
truthiness, a null check for non-null time values, and the test itself
is the half-open overlap slot.start < break_end and slot.end >
break_start. -/
def break_skip_guard (has_break : Bool) (break_start break_end : Option Nat)
    (slot_tuple : Nat × Nat) : Bool :=
  match has_break, break_start, break_end with
  | true, some bs, some be => decide (slot_tuple.1 < be) && decide (bs < slot_tuple.2)
  | _, _, _ => false

/-- The slot-generation loop of get_available_slots
(app/routers/working_hours.py lines 197-215).  slot_start and slot_end
are minutes of the target day; a candidate is skipped when it overlaps
the declared break (half-open test, with Python truthiness guarding the
nullable bounds) or any booked slot (half-open test), and the loop
advances by one hour until a full hour no longer fits. -/
def gen_slots (slot_start slot_end : Nat) (has_break : Bool)
    (break_start break_end : Option Nat) (booked_slots : List (Nat × Nat)) :
    List (Nat × Nat) :=
  if slot_start + 60 ≤ slot_end then
    let slot_tuple : Nat × Nat := (slot_start, slot_start + 60)
    if break_skip_guard has_break break_start break_end slot_tuple then
      gen_slots (slot_start + 60) slot_end has_break break_start break_end booked_slots
    else if booked_slots.any (fun booked =>
        decide (slot_tuple.1 < booked.2) && decide (booked.1 < slot_tuple.2)) then
      gen_slots (slot_start + 60) slot_end has_break break_start break_end booked_slots
    else
      slot_tuple :: gen_slots (slot_start + 60) slot_end has_break break_start break_end booked_slots
  else []
termination_by slot_end - slot_start
decreasing_by all_goals omega

/-- get_available_slots (app/routers/working_hours.py lines 150-216):
the available one-hour slots of a doctor on a calendar date, as pairs
(start, end) of minutes of the day (the route formats them "%H:%M").
Appointments of the doctor starting on the date are collected with no
status filter; the slot times compare against their times of day. -/
def get_available_slots (db : DB) (doctor_id target_date : Nat) : List (Nat × Nat) :=
  let day_of_week := target_date % 7
  match find_working_hours db doctor_id day_of_week with
  | none => []
  | some working_hours =>
    let start_of_day := target_date * 1440
    let booked_slots := (db.appointments.filter (fun a =>
        decide (a.doctor_id = doctor_id) &&
        decide (start_of_day ≤ a.start_time) &&
        decide (a.start_time < start_of_day + 1440))).map
      (fun a => (timeOfDay a.start_time, timeOfDay a.end_time))
    gen_slots working_hours.start_time working_hours.end_time
      working_hours.has_break working_hours.break_start working_hours.break_end booked_slots

/-- Request body of POST /api/appointments (AppointmentCreate). -/
structure AppointmentCreate where
  doctor_id : Nat
  start_time : Nat
deriving DecidableEq, Repr

/-- create_appointment (app/routers/appointments.py lines 113-166).
Doctors are refused up front; the end time is start plus one hour; an
inadmissible slot is a 400 with the single generic detail; on success
the appointment row is inserted with the caller as patient and status
scheduled, and a confirmation notification is recorded.  QR-code
generation only fills a presentation column and is omitted.  The none
branch of the availability check is the propagated TypeError (a 500). -/
def create_appointment (db : DB) (current_user : User) (appointment : AppointmentCreate) :
    Except HError (DB × Appointment) :=
  if current_user.is_doctor then
    .error ⟨403, "Doctors cannot create appointments"⟩
  else
    let end_time := appointment.start_time + 60
    match is_time_slot_available db appointment.doctor_id appointment.start_time end_time with
    | none => .error ⟨500, "TypeError"⟩
    | some false => .error ⟨400, "Time slot is not available"⟩
    | some true =>
      let db_appointment : Appointment :=
        { id := db.next_appointment_id
          doctor_id := appointment.doctor_id
          patient_id := current_user.id
          start_time := appointment.start_time
          end_time := end_time
          status := AppointmentStatus.scheduled }
      let confirmation : Notification :=
        { user_id := current_user.id
          title := "Appointment Confirmed"
          type := "appointment"
          appointment_id := some db_appointment.id }
      .ok ({ db with
              appointments := db.appointments ++ [db_appointment]
              notifications := db.notifications ++ [confirmation]
              next_appointment_id := db.next_appointment_id + 1 },
           db_appointment)

/-- Request body of the working-hours routes (WorkingHoursCreate). -/
structure WorkingHoursCreate where
  day_of_week : Nat
  start_time : Nat
  end_time : Nat
  has_break : Bool
  break_start : Option Nat
  break_end : Option Nat
deriving DecidableEq, Repr

/-- create_working_hours (app/routers/working_hours.py lines 33-75).
Validation: the window must satisfy start < end; when has_break is set
both break bounds must be present (Python truthiness of a non-null time
is always true, so the check is a null check) and satisfy
break_start < break_end.  No containment of the break in the window is
checked.  On success the row is persisted with is_available left at its
column default of true. -/
def create_working_hours (db : DB) (current_user : User) (doctor_id : Nat)
    (working_hours : WorkingHoursCreate) : Except HError DB :=
  if current_user.id ≠ doctor_id ∨ current_user.is_doctor = false then
    .error ⟨403, "Not authorized to set working hours"⟩
  else if working_hours.end_time ≤ working_hours.start_time then
    .error ⟨400, "Start time must be before end time"⟩
  else
    let persist : Except HError DB :=
      .ok { db with
              working_hours := db.working_hours ++
                [{ id := db.next_working_hours_id
                   doctor_id := doctor_id
                   day_of_week := working_hours.day_of_week
                   start_time := working_hours.start_time
                   end_time := working_hours.end_time
                   has_break := working_hours.has_break
                   break_start := working_hours.break_start
                   break_end := working_hours.break_end
                   is_available := true }]
              next_working_hours_id := db.next_working_hours_id + 1 }
    if working_hours.has_break then
      match working_hours.break_start, working_hours.break_end with
      | some bs, some be =>
        if be ≤ bs then
          .error ⟨400, "Break start time must be before break end time"⟩
        else persist
      | _, _ =>
        .error ⟨400, "Break start and end times are required when has_break is True"⟩
    else persist

/-- Mutation of the first row returned by the id query, as SQLAlchemy
applies appointment.status = status to the fetched object. -/
def set_status_first (rows : List Appointment) (appointment_id : Nat)
    (new_status : AppointmentStatus) : List Appointment :=
  match rows with
  | [] => []
  | a :: rest =>
    if a.id = appointment_id then { a with status := new_status } :: rest
    else a :: set_status_first rest appointment_id new_status

/-- update_appointment_status (app/routers/appointments.py lines
222-246).  The requested status is written unconditionally: no
transition table is consulted.  In the source the parameter named
status shadows the imported fastapi status module, so the not-found and
not-authorized branches raise AttributeError (surfacing as a 500)
instead of the intended 404/403; both are modelled as 500 errors. -/
def update_appointment_status (db : DB) (current_user : User) (appointment_id : Nat)
    (status : AppointmentStatus) : Except HError DB :=
  match db.appointments.find? (fun a => decide (a.id = appointment_id)) with
  | none => .error ⟨500, "AttributeError"⟩
  | some appointment =>
    if current_user.id ≠ appointment.doctor_id ∨ current_user.is_doctor = false then
      .error ⟨500, "AttributeError"⟩
    else
      .ok { db with appointments := set_status_first db.appointments appointment_id status }

/-- The two notification kinds create_appointment_notification is
called with; any other string would leave title unbound in the source
(a NameError), and no caller passes one. -/
inductive NotificationKind where
  | reminder
  | confirmation
deriving DecidableEq, Repr

/-- create_appointment_notification (app/core/scheduler.py lines
11-27): records one notification to the appointment's patient. -/
def create_appointment_notification (db : DB) (appointment : Appointment)
    (kind : NotificationKind) : DB :=
  let title :=
    match kind with
    | .reminder => "Appointment Reminder"
    | .confirmation => "Appointment Confirmed"
  { db with
      notifications := db.notifications ++
        [{ user_id := appointment.patient_id
           title := title
           type := "appointment"
           appointment_id := some appointment.id }] }

/-- check_upcoming_appointments (app/core/scheduler.py lines 29-44),
the ReminderScheduler tick: select the scheduled appointments starting
after now and no later than now plus 24 hours, and record one reminder
notification for each. -/
def check_upcoming_appointments (db : DB) (now : Nat) : DB :=
  let tomorrow := now + 1440
  let appointments := db.appointments.filter (fun a =>
    decide (a.start_time ≤ tomorrow) &&
    decide (now < a.start_time) &&
    decide (a.status = AppointmentStatus.scheduled))
  appointments.foldl (fun d a => create_appointment_notification d a .reminder) db

/-! ### Helper lemmas -/

/-- The three-disjunct overlap filter of the conflict query coincides
with the half-open interval overlap test whenever both intervals are
nondegenerate. -/
theorem appointment_overlaps_iff_halfopen (a : Appointment) (s e : Nat)
    (h1 : a.start_time < a.end_time) (h2 : s < e) :
    appointment_overlaps a s e = true ↔ (a.start_time < e ∧ s < a.end_time) := by
  simp only [appointment_overlaps, Bool.or_eq_true, Bool.and_eq_true, decide_eq_true_eq]
  omega

/-- With no declared break the conflict-side break test accepts. -/
theorem break_check_of_no_break (w : WorkingHours) (s e : Nat) (h : w.has_break = false) :
    break_check w s e = some false := by
  simp [break_check, h]

/-- With a declared, fully populated break, the conflict-side break
test fires exactly when an endpoint of the candidate lies in the closed
interval of the break bounds. -/
theorem break_check_closed_iff (w : WorkingHours) (bs be s e : Nat)
    (hb : w.has_break = true) (h1 : w.break_start = some bs) (h2 : w.break_end = some be) :
    (break_check w s e = some true ↔ ((bs ≤ s ∧ s ≤ be) ∨ (bs ≤ e ∧ e ≤ be))) := by
  simp only [break_check, hb, if_true, chained_between, h1, h2]
  by_cases h3 : bs ≤ s <;> by_cases h4 : s ≤ be <;> by_cases h5 : bs ≤ e <;> by_cases h6 : e ≤ be <;>
    simp [h3, h4, h5, h6]

/-- Every slot the loop emits is a full hour, aligned to the loop
start, ending inside the window, and clear of every booked slot. -/
theorem gen_slots_sound_aux (slot_end : Nat) (hb : Bool) (bs be : Option Nat)
    (booked : List (Nat × Nat)) :
    ∀ (n slot_start : Nat), slot_end - slot_start ≤ n →
      ∀ p ∈ gen_slots slot_start slot_end hb bs be booked,
        ∃ k, p.1 = slot_start + 60 * k ∧ p.2 = p.1 + 60 ∧ p.2 ≤ slot_end ∧
          booked.any (fun b => decide (p.1 < b.2) && decide (b.1 < p.2)) = false := by
  intro n
  induction n with
  | zero =>
    intro s hle p hp
    rw [gen_slots] at hp
    have hc : ¬ (s + 60 ≤ slot_end) := by omega
    simp [hc] at hp
  | succ n ih =>
    intro s hle p hp
    rw [gen_slots] at hp
    by_cases hc : s + 60 ≤ slot_end
    · simp only [if_pos hc] at hp
      split at hp
      · obtain ⟨k, hk1, hk2, hk3, hk4⟩ := ih (s + 60) (by omega) p hp
        exact ⟨k + 1, by omega, hk2, hk3, hk4⟩
      · split at hp
        · next hbooked =>
          obtain ⟨k, hk1, hk2, hk3, hk4⟩ := ih (s + 60) (by omega) p hp
          exact ⟨k + 1, by omega, hk2, hk3, hk4⟩
        · next hbooked =>
          rcases List.mem_cons.1 hp with hhead | htail
          · refine ⟨0, by simp [hhead], by simp [hhead], by simp [hhead]; omega, ?_⟩
            subst hhead
            simpa using hbooked
          · obtain ⟨k, hk1, hk2, hk3, hk4⟩ := ih (s + 60) (by omega) p htail
            exact ⟨k + 1, by omega, hk2, hk3, hk4⟩
    · simp [hc] at hp

/-- Wrapper of gen_slots_sound_aux with the measure instantiated. -/
theorem gen_slots_sound (slot_start slot_end : Nat) (hb : Bool) (bs be : Option Nat)
    (booked : List (Nat × Nat)) (p : Nat × Nat)
    (hp : p ∈ gen_slots slot_start slot_end hb bs be booked) :
    ∃ k, p.1 = slot_start + 60 * k ∧ p.2 = p.1 + 60 ∧ p.2 ≤ slot_end ∧
      booked.any (fun b => decide (p.1 < b.2) && decide (b.1 < p.2)) = false :=
  gen_slots_sound_aux slot_end hb bs be booked (slot_end - slot_start) slot_start le_rfl p hp

/-- An aligned full-hour candidate that fits the window and passes both
guards is emitted by the loop. -/
theorem gen_slots_complete (slot_end : Nat) (hb : Bool) (bs be : Option Nat)
    (booked : List (Nat × Nat)) :
    ∀ (k slot_start : Nat), slot_start + 60 * k + 60 ≤ slot_end →
      break_skip_guard hb bs be (slot_start + 60 * k, slot_start + 60 * k + 60) = false →
      booked.any (fun b =>
        decide (slot_start + 60 * k < b.2) && decide (b.1 < slot_start + 60 * k + 60)) = false →
      (slot_start + 60 * k, slot_start + 60 * k + 60) ∈
        gen_slots slot_start slot_end hb bs be booked := by
  intro k
  induction k with
  | zero =>
    intro s h1 h2 h3
    simp only [Nat.mul_zero, Nat.add_zero] at h1 h2 h3 ⊢
    rw [gen_slots]
    have hc : s + 60 ≤ slot_end := h1
    simp only [if_pos hc, h2, if_false, Bool.false_eq_true]
    simp only [h3, Bool.false_eq_true, if_false]
    exact List.mem_cons_self _ _
  | succ k ih =>
    intro s h1 h2 h3
    have harith : s + 60 * (k + 1) = (s + 60) + 60 * k := by ring
    rw [harith] at h1 h2 h3 ⊢
    rw [gen_slots]
    have hc : s + 60 ≤ slot_end := by omega
    simp only [if_pos hc]
    have hmem := ih (s + 60) h1 h2 h3
    split
    · exact hmem
    · split
      · exact hmem
      · exact List.mem_cons_of_mem _ hmem

/-- The emitted slot sequence is strictly ascending by start time and
pairwise non-overlapping: each slot ends no later than any later slot
starts. -/
theorem gen_slots_pairwise_aux (slot_end : Nat) (hb : Bool) (bs be : Option Nat)
    (booked : List (Nat × Nat)) :
    ∀ (n slot_start : Nat), slot_end - slot_start ≤ n →
      List.Pairwise (fun p q : Nat × Nat => p.1 < q.1 ∧ p.2 ≤ q.1)
        (gen_slots slot_start slot_end hb bs be booked) := by
  intro n
  induction n with
  | zero =>
    intro s hle
    rw [gen_slots]
    have hc : ¬ (s + 60 ≤ slot_end) := by omega
    simp [hc]
  | succ n ih =>
    intro s hle
    rw [gen_slots]
    by_cases hc : s + 60 ≤ slot_end
    · simp only [if_pos hc]
      split
      · exact ih (s + 60) (by omega)
      · split
        · exact ih (s + 60) (by omega)
        · refine List.Pairwise.cons ?_ (ih (s + 60) (by omega))
          intro q hq
          obtain ⟨k, hk1, hk2, hk3, hk4⟩ :=
            gen_slots_sound (s + 60) slot_end hb bs be booked q hq
          constructor <;> omega
    · simp [hc]

/-- Wrapper of gen_slots_pairwise_aux with the measure instantiated. -/
theorem gen_slots_pairwise (slot_start slot_end : Nat) (hb : Bool) (bs be : Option Nat)
    (booked : List (Nat × Nat)) :
    List.Pairwise (fun p q : Nat × Nat => p.1 < q.1 ∧ p.2 ≤ q.1)
      (gen_slots slot_start slot_end hb bs be booked) :=
  gen_slots_pairwise_aux slot_end hb bs be booked (slot_end - slot_start) slot_start le_rfl

/-! ### Concrete fixtures

Day 0 of the model is a Monday; minute counts: 540 = 09:00, 600 =
10:00, 660 = 11:00, 690 = 11:30, 720 = 12:00, 750 = 12:30, 780 =
13:00, 1020 = 17:00. -/

/-- Monday 09:00-17:00 with a 12:00-13:00 break. -/
def wh_break : WorkingHours := ⟨1, 1, 0, 540, 1020, true, some 720, some 780, true⟩

/-- A doctor with only the wh_break entry and no appointments. -/
def db_break : DB := ⟨[], [wh_break], [], 1, 2⟩

/-- Monday 09:00-17:00 with no break. -/
def wh_plain : WorkingHours := ⟨1, 1, 0, 540, 1020, false, none, none, true⟩

/-- A doctor with the wh_plain entry and no appointments. -/
def db_free : DB := ⟨[], [wh_plain], [], 1, 2⟩

/-- A scheduled appointment on Monday (day 0) 09:00-10:00. -/
def appt_nine : Appointment := ⟨1, 1, 2, 540, 600, AppointmentStatus.scheduled⟩

/-- A doctor with the wh_plain entry and appt_nine booked. -/
def db_booked : DB := ⟨[appt_nine], [wh_plain], [], 2, 2⟩

/-- The doctor who owns the fixtures, as the authenticated caller. -/
def doctor_user : User := ⟨1, true⟩

/-- A patient caller. -/
def patient_user : User := ⟨2, false⟩

/-- Monday 09:00-10:00, no break: a one-slot window. -/
def wh_short : WorkingHours := ⟨1, 1, 0, 540, 600, false, none, none, true⟩

/-- A CANCELLED appointment on Monday (day 0) 09:00-10:00. -/
def appt_cancelled_nine : Appointment := ⟨1, 1, 2, 540, 600, AppointmentStatus.cancelled⟩

/-- A doctor whose only appointment is cancelled, inside a one-slot window. -/
def db_cancelled : DB := ⟨[appt_cancelled_nine], [wh_short], [], 2, 2⟩

/-! ### Claims -/

/-- C2: the claim asserts that with working hours 09:00-17:00 and break
12:00-13:00 a booking of 11:00-12:00 (which only abuts the break) is
admitted.  It is not: the source break test fires when an endpoint lies
in the CLOSED interval of the break bounds, and the proposal's end
12:00 equals break_start, so the conflict check rejects it. -/
theorem C2_counterexample :
    is_time_slot_available db_break 1 660 720 = some false := by decide

/-- C2 (amended): the conflict check rejects a proposed interval for a
declared break using a closed endpoint-containment test (reject iff
break_start ≤ candidate.start ≤ break_end or break_start ≤
candidate.end ≤ break_end), so with working hours 09:00-17:00 and break
12:00-13:00 the bookings 12:00-13:00 and 11:30-12:30 are rejected, and
the abutting booking 11:00-12:00 is rejected as well. -/
theorem C2_break_rejection (w : WorkingHours) (bs be s e : Nat)
    (hb : w.has_break = true) (h1 : w.break_start = some bs) (h2 : w.break_end = some be) :
    (break_check w s e = some true ↔ ((bs ≤ s ∧ s ≤ be) ∨ (bs ≤ e ∧ e ≤ be))) ∧
    is_time_slot_available db_break 1 720 780 = some false ∧
    is_time_slot_available db_break 1 690 750 = some false ∧
    is_time_slot_available db_break 1 660 720 = some false :=
  ⟨break_check_closed_iff w bs be s e hb h1 h2, by decide, by decide, by decide⟩

/-- C2 witness: the closed-endpoint break test applied at the concrete
scenario interval 11:00-12:00 against the 12:00-13:00 break. -/
theorem C2_witness : break_check wh_break 660 720 = some true :=
  (C2_break_rejection wh_break 720 780 660 720 rfl rfl rfl).1.mpr (by decide)

/-- C3: appointment-against-appointment conflict is the half-open
overlap test on nondegenerate intervals; an interval abutting an
existing appointment on either side is not flagged as an overlap
(concretely, booking 10:00-11:00 next to a 09:00-10:00 appointment is
admitted), and a proposal identical to an existing non-cancelled
appointment is rejected. -/
theorem C3_halfopen_overlap :
    (∀ (a : Appointment) (s e : Nat), a.start_time < a.end_time → s < e →
      (appointment_overlaps a s e = true ↔ (a.start_time < e ∧ s < a.end_time))) ∧
    (∀ (a : Appointment) (s e : Nat), a.start_time < a.end_time → s < e →
      (e = a.start_time ∨ s = a.end_time) → appointment_overlaps a s e = false) ∧
    (∀ (db : DB) (d : Nat) (a : Appointment), a ∈ db.appointments → a.doctor_id = d →
      a.status ≠ AppointmentStatus.cancelled →
      is_time_slot_available db d a.start_time a.end_time = some false) ∧
    is_time_slot_available db_booked 1 600 660 = some true := by
  refine ⟨fun a s e h1 h2 => appointment_overlaps_iff_halfopen a s e h1 h2, ?_, ?_, by decide⟩
  · intro a s e h1 h2 h3
    rw [← Bool.not_eq_true, appointment_overlaps_iff_halfopen a s e h1 h2]
    rcases h3 with h3 | h3 <;> omega
  · intro db d a hmem hdoc hstat
    have hany : db.appointments.any (fun x =>
        decide (x.doctor_id = d) && !decide (x.status = AppointmentStatus.cancelled) &&
        appointment_overlaps x a.start_time a.end_time) = true := by
      refine List.any_eq_true.mpr ⟨a, hmem, ?_⟩
      simp [hdoc, hstat, appointment_overlaps]
    simp [is_time_slot_available, hany]

/-- C3 witness: the half-open characterization and the abut/identical
outcomes at the concrete 09:00-10:00 appointment. -/
theorem C3_witness :
    (appointment_overlaps appt_nine 600 660 = true ↔ (540 < 660 ∧ 600 < 600)) ∧
    appointment_overlaps appt_nine 600 660 = false ∧
    is_time_slot_available db_booked 1 540 600 = some false :=
  ⟨C3_halfopen_overlap.1 appt_nine 600 660 (by decide) (by decide),
   C3_halfopen_overlap.2.1 appt_nine 600 660 (by decide) (by decide) (Or.inr rfl),
   C3_halfopen_overlap.2.2.1 db_booked 1 appt_nine (by decide) rfl (by decide)⟩

/-- C4: the claim requires unmodeled lifecycle transitions to fail with
InvalidTransition and leave the status unchanged.  The source has no
transition table at all: update_appointment_status writes whatever
status is requested.  A direct scheduled to completed request, which
the claim says must be rejected, succeeds; the individual chain steps
scheduled to confirmed to in_progress to completed also all succeed. -/
theorem C4_status_set_unconditionally :
    update_appointment_status db_booked doctor_user 1 AppointmentStatus.completed =
      .ok ⟨[⟨1, 1, 2, 540, 600, AppointmentStatus.completed⟩], [wh_plain], [], 2, 2⟩ ∧
    update_appointment_status db_booked doctor_user 1 AppointmentStatus.confirmed =
      .ok ⟨[⟨1, 1, 2, 540, 600, AppointmentStatus.confirmed⟩], [wh_plain], [], 2, 2⟩ ∧
    update_appointment_status ⟨[⟨1, 1, 2, 540, 600, AppointmentStatus.confirmed⟩], [wh_plain], [], 2, 2⟩
        doctor_user 1 AppointmentStatus.in_progress =
      .ok ⟨[⟨1, 1, 2, 540, 600, AppointmentStatus.in_progress⟩], [wh_plain], [], 2, 2⟩ ∧
    update_appointment_status ⟨[⟨1, 1, 2, 540, 600, AppointmentStatus.in_progress⟩], [wh_plain], [], 2, 2⟩
        doctor_user 1 AppointmentStatus.completed =
      .ok ⟨[⟨1, 1, 2, 540, 600, AppointmentStatus.completed⟩], [wh_plain], [], 2, 2⟩ :=
  ⟨rfl, rfl, rfl, rfl⟩

/-- C5: the claim asserts validation also fails when a declared break
is not strictly contained in the working window.  The source never
checks containment: a 18:00-19:00 break against a 09:00-17:00 window
passes validation and the entry is persisted. -/
theorem C5_counterexample :
    create_working_hours ⟨[], [], [], 1, 1⟩ ⟨1, true⟩ 1 ⟨0, 540, 1020, true, some 1080, some 1140⟩ =
      .ok ⟨[], [⟨1, 1, 0, 540, 1020, true, some 1080, some 1140, true⟩], [], 1, 2⟩ ∧
    ¬ (540 < 1080 ∧ 1140 < 1020) :=
  ⟨rfl, by decide⟩

/-- C5 (amended): working-hours validation fails with the window error
whenever start ≥ end, and with a break error whenever a break is
declared but missing a bound or has break-start ≥ break-end; in each
failing case the function returns the error and nothing is persisted.
Containment of the break inside the window is never checked. -/
theorem C5_validation (db : DB) (current_user : User) (doctor_id : Nat)
    (w : WorkingHoursCreate) (hid : current_user.id = doctor_id)
    (hdoc : current_user.is_doctor = true) :
    (w.end_time ≤ w.start_time →
      create_working_hours db current_user doctor_id w =
        .error ⟨400, "Start time must be before end time"⟩) ∧
    (w.start_time < w.end_time → w.has_break = true →
      (w.break_start = none ∨ w.break_end = none) →
      create_working_hours db current_user doctor_id w =
        .error ⟨400, "Break start and end times are required when has_break is True"⟩) ∧
    (∀ bs be, w.start_time < w.end_time → w.has_break = true →
      w.break_start = some bs → w.break_end = some be → be ≤ bs →
      create_working_hours db current_user doctor_id w =
        .error ⟨400, "Break start time must be before break end time"⟩) := by
  have hauth : ¬ (current_user.id ≠ doctor_id ∨ current_user.is_doctor = false) := by
    simp [hid, hdoc]
  refine ⟨?_, ?_, ?_⟩
  · intro h
    simp [create_working_hours, hauth, h]
  · intro h1 h2 h3
    have hno : ¬ (w.end_time ≤ w.start_time) := by omega
    rcases h3 with h3 | h3
    · rcases hbe : w.break_end with _ | be <;>
        simp [create_working_hours, hauth, hno, h2, h3, hbe]
    · rcases hbs : w.break_start with _ | bs <;>
        simp [create_working_hours, hauth, hno, h2, h3, hbs]
  · intro bs be h1 h2 h3 h4 h5
    have hno : ¬ (w.end_time ≤ w.start_time) := by omega
    simp [create_working_hours, hauth, hno, h2, h3, h4, h5]

/-- C5 witness: a degenerate 10:00-10:00 window is rejected with the
window error. -/
theorem C5_witness :
    create_working_hours ⟨[], [], [], 1, 1⟩ ⟨1, true⟩ 1 ⟨0, 600, 600, false, none, none⟩ =
      .error ⟨400, "Start time must be before end time"⟩ :=
  (C5_validation ⟨[], [], [], 1, 1⟩ ⟨1, true⟩ 1 ⟨0, 600, 600, false, none, none⟩ rfl rfl).1 le_rfl

/-- C8: the claim says a slot overlapping only cancelled appointments
still appears in get_available_slots.  The read path applies no status
filter, so the cancelled 09:00-10:00 appointment suppresses the only
slot of the window and the result is empty, even though the conflict
check (which does exclude cancelled rows) would admit that interval. -/
theorem C8_cancelled_blocks_read_path :
    db_cancelled.appointments.all (fun a => decide (a.status = AppointmentStatus.cancelled)) = true ∧
    is_time_slot_available db_cancelled 1 540 600 = some true ∧
    get_available_slots db_cancelled 1 0 = [] := by
  refine ⟨by decide, by decide, ?_⟩
  show gen_slots 540 600 false none none [(540, 600)] = []
  rw [gen_slots]
  norm_num [break_skip_guard]
  rw [gen_slots]
  norm_num

/-- C9: the claim asserts booking rejections carry the specific
conflict reason, and in particular that a weekday without a
WorkingHoursEntry rejects with "no availability".  The source conflict
guard only returns a boolean, and create_appointment maps every
inadmissible slot to the same 400 detail "Time slot is not available":
the no-working-hours rejection is indistinguishable from the overlap
rejection. -/
theorem C9_counterexample :
    create_appointment ⟨[], [], [], 1, 1⟩ ⟨2, false⟩ ⟨1, 600⟩ =
      .error ⟨400, "Time slot is not available"⟩ ∧
    create_appointment db_booked ⟨3, false⟩ ⟨1, 540⟩ =
      .error ⟨400, "Time slot is not available"⟩ :=
  ⟨rfl, rfl⟩

/-- C9 (amended): every booking rejection by the conflict guard is
surfaced to the caller as the same undifferentiated 400 error with
detail "Time slot is not available", whatever the cause (overlap,
outside working hours, inside a break, or no availability for the
weekday). -/
theorem C9_generic_rejection (db : DB) (current_user : User) (req : AppointmentCreate)
    (h1 : current_user.is_doctor = false)
    (h2 : is_time_slot_available db req.doctor_id req.start_time (req.start_time + 60) =
      some false) :
    create_appointment db current_user req = .error ⟨400, "Time slot is not available"⟩ := by
  simp [create_appointment, h1, h2]

/-- C9 witness: a booking on a weekday with no working hours at all is
rejected with the generic message. -/
theorem C9_witness :
    create_appointment ⟨[], [], [], 1, 1⟩ ⟨2, false⟩ ⟨1, 660⟩ =
      .error ⟨400, "Time slot is not available"⟩ :=
  C9_generic_rejection ⟨[], [], [], 1, 1⟩ ⟨2, false⟩ ⟨1, 660⟩ rfl (by decide)

/-- C10: a caller flagged as doctor always gets the 403 before any
availability check (the rejection does not depend on the database
state, and no row is created since the state is returned unchanged only
on success); every appointment actually created carries the caller as
patient, status scheduled, and an end time exactly one hour after its
start. -/
theorem C10_create_appointment (db : DB) (current_user : User) (req : AppointmentCreate) :
    (current_user.is_doctor = true →
      create_appointment db current_user req =
        .error ⟨403, "Doctors cannot create appointments"⟩) ∧
    (∀ db2 a, create_appointment db current_user req = .ok (db2, a) →
      a.patient_id = current_user.id ∧ a.status = AppointmentStatus.scheduled ∧
      a.start_time = req.start_time ∧ a.end_time = a.start_time + 60 ∧
      db2.appointments = db.appointments ++ [a]) := by
  constructor
  · intro h
    simp [create_appointment, h]
  · intro db2 a h
    by_cases hd : current_user.is_doctor = true
    · simp [create_appointment, hd] at h
    · simp only [create_appointment, hd, if_false, Bool.false_eq_true] at h
      split at h
      · exact absurd h (by simp)
      · exact absurd h (by simp)
      · simp only [Except.ok.injEq, Prod.mk.injEq] at h
        obtain ⟨hdb2, ha⟩ := h
        subst hdb2
        subst ha
        exact ⟨rfl, rfl, rfl, rfl, rfl⟩

/-- The appointment created by the C10 witness booking. -/
def appt_created : Appointment := ⟨1, 1, 2, 600, 660, AppointmentStatus.scheduled⟩

/-- The database state after the C10 witness booking. -/
def db_after_create : DB :=
  ⟨[appt_created], [wh_plain], [⟨2, "Appointment Confirmed", "appointment", some 1⟩], 2, 2⟩

/-- C10 witness: the doctor caller is refused; the patient booking at
Monday 10:00 creates the expected row. -/
theorem C10_witness :
    create_appointment db_free doctor_user ⟨1, 600⟩ =
      .error ⟨403, "Doctors cannot create appointments"⟩ ∧
    (appt_created.patient_id = 2 ∧ appt_created.status = AppointmentStatus.scheduled ∧
      appt_created.start_time = 600 ∧ appt_created.end_time = appt_created.start_time + 60 ∧
      db_after_create.appointments = db_free.appointments ++ [appt_created]) :=
  ⟨(C10_create_appointment db_free doctor_user ⟨1, 600⟩).1 rfl,
   (C10_create_appointment db_free patient_user ⟨1, 600⟩).2 db_after_create appt_created rfl⟩

/-- C6: for every provider and date the slot sequence is strictly
ascending by start time and pairwise non-overlapping; every slot is
exactly one hour, starts on an hour boundary stepped from the window
start, and ends no later than the window end (no partial trailing
slot); and when no active working-hours row exists for the weekday
(including is_available false, which the lookup filters out) the result
is the empty sequence rather than an error. -/
theorem C6_slot_sequence (db : DB) (doctor_id target_date : Nat) :
    List.Pairwise (fun p q : Nat × Nat => p.1 < q.1 ∧ p.2 ≤ q.1)
      (get_available_slots db doctor_id target_date) ∧
    (∀ wh, find_working_hours db doctor_id (target_date % 7) = some wh →
      ∀ p ∈ get_available_slots db doctor_id target_date,
        p.2 = p.1 + 60 ∧ p.2 ≤ wh.end_time ∧ ∃ k, p.1 = wh.start_time + 60 * k) ∧
    (find_working_hours db doctor_id (target_date % 7) = none →
      get_available_slots db doctor_id target_date = []) := by
  cases hfind : find_working_hours db doctor_id (target_date % 7) with
  | none =>
    refine ⟨?_, ?_, fun _ => ?_⟩ <;> simp [get_available_slots, hfind]
  | some wh =>
    have hunfold : get_available_slots db doctor_id target_date =
        gen_slots wh.start_time wh.end_time wh.has_break wh.break_start wh.break_end
          ((db.appointments.filter (fun a =>
              decide (a.doctor_id = doctor_id) &&
              decide (target_date * 1440 ≤ a.start_time) &&
              decide (a.start_time < target_date * 1440 + 1440))).map
            (fun a => (timeOfDay a.start_time, timeOfDay a.end_time))) := by
      simp only [get_available_slots, hfind]
    refine ⟨?_, ?_, ?_⟩
    · rw [hunfold]
      exact gen_slots_pairwise _ _ _ _ _ _
    · intro wh2 hfind2 p hp
      injection hfind2 with heq
      subst heq
      rw [hunfold] at hp
      obtain ⟨k, h1, h2, h3, _⟩ := gen_slots_sound _ _ _ _ _ _ p hp
      exact ⟨h2, h3, k, h1⟩
    · intro hcon
      cases hcon

/-- C6 witness: the first slot of the break-day fixture is one hour
long, inside the window, and aligned to the window start. -/
theorem C6_witness :
    ((540, 600) : Nat × Nat).2 = ((540, 600) : Nat × Nat).1 + 60 ∧
    ((540, 600) : Nat × Nat).2 ≤ 1020 ∧
    ∃ k, ((540, 600) : Nat × Nat).1 = 540 + 60 * k := by
  have hmem : ((540, 600) : Nat × Nat) ∈ get_available_slots db_break 1 0 := by
    have h := gen_slots_complete 1020 true (some 720) (some 780) [] 0 540
      (by norm_num) (by decide) (by decide)
    simpa using h
  exact (C6_slot_sequence db_break 1 0).2.1 wh_break rfl (540, 600) hmem

/-- The reminder record the tick writes for an appointment. -/
def reminder_record (a : Appointment) : Notification :=
  { user_id := a.patient_id, title := "Appointment Reminder", type := "appointment",
    appointment_id := some a.id }

/-- The tick's fold over the selected appointments only appends one
reminder notification per selected appointment, in order, and touches
nothing else in the state. -/
theorem foldl_reminders (sel : List Appointment) (db : DB) :
    (sel.foldl (fun d a => create_appointment_notification d a .reminder) db).appointments =
        db.appointments ∧
    (sel.foldl (fun d a => create_appointment_notification d a .reminder) db).notifications =
        db.notifications ++ sel.map reminder_record := by
  induction sel generalizing db with
  | nil => simp
  | cons a rest ih =>
    simp only [List.foldl_cons, List.map_cons]
    obtain ⟨h1, h2⟩ := ih (create_appointment_notification db a .reminder)
    refine ⟨by rw [h1]; rfl, ?_⟩
    rw [h2]
    simp [create_appointment_notification, reminder_record]

/-- Counting matches of an id among the filtered rows: with no
duplicate ids, a member contributes one exactly when it passes the
filter. -/
theorem countP_id_filter (l : List Appointment) (p : Appointment → Bool) (a : Appointment)
    (hnodup : (l.map (fun x => x.id)).Nodup) (hmem : a ∈ l) :
    (l.filter p).countP (fun x => decide (x.id = a.id)) = if p a then 1 else 0 := by
  induction l with
  | nil => cases hmem
  | cons b rest ih =>
    simp only [List.map_cons, List.nodup_cons] at hnodup
    obtain ⟨hb, hrest⟩ := hnodup
    rcases List.mem_cons.1 hmem with rfl | hmem2
    · have hzero : (rest.filter p).countP (fun x => decide (x.id = a.id)) = 0 := by
        refine List.countP_eq_zero.mpr ?_
        intro x hx
        have hx2 : x ∈ rest := List.mem_of_mem_filter hx
        have hne : x.id ≠ a.id := fun hcon => hb (hcon ▸ List.mem_map_of_mem _ hx2)
        simp [hne]
      by_cases hpa : p a
      · simp [List.filter_cons, hpa, List.countP_cons, hzero]
      · simp [List.filter_cons, hpa, hzero]
    · have hbid : b.id ≠ a.id := by
        intro hcon
        exact hb (hcon ▸ List.mem_map_of_mem _ hmem2)
      have ihr := ih hrest hmem2
      by_cases hpb : p b
      · simp [List.filter_cons, hpb, List.countP_cons, hbid, ihr]
      · simp [List.filter_cons, hpb, ihr]

/-- C7: one scheduler tick leaves every appointment untouched (in
particular no status changes) and, when appointment ids are unique,
adds exactly one reminder notification for each appointment that is
scheduled and starts strictly after the current time and at most 24
hours ahead, and none for any other appointment. -/
theorem C7_tick (db : DB) (now : Nat)
    (hids : (db.appointments.map (fun a => a.id)).Nodup) :
    (check_upcoming_appointments db now).appointments = db.appointments ∧
    ∀ a ∈ db.appointments,
      (check_upcoming_appointments db now).notifications.countP
          (fun n => decide (n.appointment_id = some a.id) &&
            decide (n.title = "Appointment Reminder")) =
        db.notifications.countP
          (fun n => decide (n.appointment_id = some a.id) &&
            decide (n.title = "Appointment Reminder")) +
        (if a.status = AppointmentStatus.scheduled ∧ now < a.start_time ∧
            a.start_time ≤ now + 1440 then 1 else 0) := by
  obtain ⟨h1, h2⟩ := foldl_reminders (db.appointments.filter (fun a =>
    decide (a.start_time ≤ now + 1440) &&
    decide (now < a.start_time) &&
    decide (a.status = AppointmentStatus.scheduled))) db
  refine ⟨h1, ?_⟩
  intro a hmem
  rw [show check_upcoming_appointments db now = (db.appointments.filter (fun a =>
      decide (a.start_time ≤ now + 1440) &&
      decide (now < a.start_time) &&
      decide (a.status = AppointmentStatus.scheduled))).foldl
        (fun d a => create_appointment_notification d a .reminder) db from rfl]
  rw [h2, List.countP_append]
  have hmap : ((db.appointments.filter (fun a =>
      decide (a.start_time ≤ now + 1440) &&
      decide (now < a.start_time) &&
      decide (a.status = AppointmentStatus.scheduled))).map reminder_record).countP
        (fun n => decide (n.appointment_id = some a.id) &&
          decide (n.title = "Appointment Reminder")) =
      (db.appointments.filter (fun a =>
        decide (a.start_time ≤ now + 1440) &&
        decide (now < a.start_time) &&
        decide (a.status = AppointmentStatus.scheduled))).countP
          (fun x => decide (x.id = a.id)) := by
    rw [List.countP_map]
    refine List.countP_congr ?_
    intro x _
    simp [reminder_record, Function.comp]
  rw [hmap, countP_id_filter _ _ a hids hmem]
  by_cases hcond : a.status = AppointmentStatus.scheduled ∧ now < a.start_time ∧
      a.start_time ≤ now + 1440
  · obtain ⟨hc1, hc2, hc3⟩ := hcond
    simp [hc1, hc2, hc3]
  · have hfalse : (decide (a.start_time ≤ now + 1440) &&
        decide (now < a.start_time) &&
        decide (a.status = AppointmentStatus.scheduled)) = false := by
      simp only [Bool.and_eq_false_iff, decide_eq_false_iff_not]
      by_cases hs : a.status = AppointmentStatus.scheduled
      · by_cases ht : now < a.start_time
        · left
          left
          intro hcon
          exact hcond ⟨hs, ht, hcon⟩
        · left
          right
          exact ht
      · right
        exact hs
    rw [hfalse]
    simp [hcond]

/-- A scheduled appointment starting 23 hours from tick time 0. -/
def appt_23h : Appointment := ⟨1, 1, 2, 1380, 1440, AppointmentStatus.scheduled⟩

/-- A scheduled appointment starting 25 hours from tick time 0. -/
def appt_25h : Appointment := ⟨2, 1, 2, 1500, 1560, AppointmentStatus.scheduled⟩

/-- A cancelled appointment starting 23 hours from tick time 0. -/
def appt_23h_cancelled : Appointment := ⟨3, 1, 2, 1380, 1440, AppointmentStatus.cancelled⟩

/-- The reminder-scenario state: three appointments, no notifications. -/
def db_reminders : DB := ⟨[appt_23h, appt_25h, appt_23h_cancelled], [], [], 4, 1⟩

/-- C7 witness: on a tick at time 0 the 23-hours-ahead scheduled
appointment gets exactly one reminder, the 25-hours-ahead one gets
none, and the cancelled one gets none. -/
theorem C7_witness :
    (check_upcoming_appointments db_reminders 0).notifications.countP
        (fun n => decide (n.appointment_id = some appt_23h.id) &&
          decide (n.title = "Appointment Reminder")) = 1 ∧
    (check_upcoming_appointments db_reminders 0).notifications.countP
        (fun n => decide (n.appointment_id = some appt_25h.id) &&
          decide (n.title = "Appointment Reminder")) = 0 ∧
    (check_upcoming_appointments db_reminders 0).notifications.countP
        (fun n => decide (n.appointment_id = some appt_23h_cancelled.id) &&
          decide (n.title = "Appointment Reminder")) = 0 := by
  have h := C7_tick db_reminders 0 (by decide)
  refine ⟨?_, ?_, ?_⟩
  · have h1 := h.2 appt_23h (by decide)
    simpa [db_reminders, appt_23h] using h1
  · have h1 := h.2 appt_25h (by decide)
    simpa [db_reminders, appt_25h] using h1
  · have h1 := h.2 appt_23h_cancelled (by decide)
    simpa [db_reminders, appt_23h_cancelled] using h1

/-- C1: the claimed admission/slot-membership equivalence fails on the
code.  With working hours 09:00-17:00 and break 12:00-13:00, the
11:00-12:00 slot appears in get_available_slots (whose break test is
the half-open overlap), yet the same interval is rejected by
is_time_slot_available (whose break test is closed endpoint
containment, and 12:00 equals break start). -/
theorem C1_counterexample :
    ((660, 720) : Nat × Nat) ∈ get_available_slots db_break 1 0 ∧
    is_time_slot_available db_break 1 660 720 = some false := by
  constructor
  · have h := gen_slots_complete 1020 true (some 720) (some 780) [] 2 540
      (by norm_num) (by decide) (by decide)
    simpa using h
  · decide

/-- C1 (amended): the equivalence holds only on the common core of the
two paths: for a working-hours entry with no declared break, a
candidate interval aligned to the window start that lies strictly
inside the target date, and a database in which every appointment of
the provider is non-cancelled, nondegenerate, and contained in the
target date, admission by is_time_slot_available coincides with
membership of the interval in get_available_slots.  Outside these
restrictions the two paths disagree: the break tests differ, cancelled
appointments block only the read path, and unaligned or
midnight-crossing intervals can be admitted but are never listed. -/
theorem C1_admission_slot_equivalence (db : DB) (d D k : Nat) (wh : WorkingHours)
    (hfind : find_working_hours db d (D % 7) = some wh)
    (hnb : wh.has_break = false)
    (hday : wh.start_time + 60 * k + 60 < 1440)
    (happts : ∀ a ∈ db.appointments, a.doctor_id = d →
      a.status ≠ AppointmentStatus.cancelled ∧ a.start_time < a.end_time ∧
      D * 1440 ≤ a.start_time ∧ a.end_time < (D + 1) * 1440) :
    (is_time_slot_available db d (D * 1440 + (wh.start_time + 60 * k))
        (D * 1440 + (wh.start_time + 60 * k) + 60) = some true ↔
      (wh.start_time + 60 * k, wh.start_time + 60 * k + 60) ∈
        get_available_slots db d D) := by
  set σ := wh.start_time + 60 * k with hσdef
  have hσlt : σ + 60 < 1440 := hday
  have hwday : weekday (D * 1440 + σ) = D % 7 := by
    unfold weekday
    omega
  have htods : timeOfDay (D * 1440 + σ) = σ := by
    unfold timeOfDay
    omega
  have htode : timeOfDay (D * 1440 + σ + 60) = σ + 60 := by
    unfold timeOfDay
    omega
  have hslots : get_available_slots db d D =
      gen_slots wh.start_time wh.end_time wh.has_break wh.break_start wh.break_end
        ((db.appointments.filter (fun a =>
            decide (a.doctor_id = d) &&
            decide (D * 1440 ≤ a.start_time) &&
            decide (a.start_time < D * 1440 + 1440))).map
          (fun a => (timeOfDay a.start_time, timeOfDay a.end_time))) := by
    simp only [get_available_slots, hfind]
  have hbooked_iff : (((db.appointments.filter (fun a =>
      decide (a.doctor_id = d) &&
      decide (D * 1440 ≤ a.start_time) &&
      decide (a.start_time < D * 1440 + 1440))).map
        (fun a => (timeOfDay a.start_time, timeOfDay a.end_time))).any
          (fun b => decide (σ < b.2) && decide (b.1 < σ + 60)) = true) ↔
      (∃ a ∈ db.appointments, a.doctor_id = d ∧
        a.start_time < D * 1440 + σ + 60 ∧ D * 1440 + σ < a.end_time) := by
    constructor
    · intro h
      obtain ⟨b, hbmem, hbpred⟩ := List.any_eq_true.mp h
      obtain ⟨a, hafilter, hab⟩ := List.mem_map.mp hbmem
      have hamem : a ∈ db.appointments := List.mem_of_mem_filter hafilter
      have hfilter_pred := List.of_mem_filter hafilter
      simp only [Bool.and_eq_true, decide_eq_true_eq] at hfilter_pred
      obtain ⟨⟨had, hge⟩, hlt⟩ := hfilter_pred
      obtain ⟨hnc, hne, hge2, hlt2⟩ := happts a hamem had
      rw [← hab] at hbpred
      simp only [Bool.and_eq_true, decide_eq_true_eq] at hbpred
      obtain ⟨hb1, hb2⟩ := hbpred
      have e1 : timeOfDay a.start_time = a.start_time - D * 1440 := by
        unfold timeOfDay
        omega
      have e2 : timeOfDay a.end_time = a.end_time - D * 1440 := by
        unfold timeOfDay
        omega
      rw [e1] at hb2
      rw [e2] at hb1
      exact ⟨a, hamem, had, by omega, by omega⟩
    · rintro ⟨a, hamem, had, h1, h2⟩
      obtain ⟨hnc, hne, hge2, hlt2⟩ := happts a hamem had
      have e1 : timeOfDay a.start_time = a.start_time - D * 1440 := by
        unfold timeOfDay
        omega
      have e2 : timeOfDay a.end_time = a.end_time - D * 1440 := by
        unfold timeOfDay
        omega
      refine List.any_eq_true.mpr
        ⟨(timeOfDay a.start_time, timeOfDay a.end_time), ?_, ?_⟩
      · refine List.mem_map.mpr ⟨a, List.mem_filter.mpr ⟨hamem, ?_⟩, rfl⟩
        simp only [Bool.and_eq_true, decide_eq_true_eq]
        refine ⟨⟨had, hge2⟩, by omega⟩
      · simp only [Bool.and_eq_true, decide_eq_true_eq]
        rw [e1, e2]
        constructor <;> omega
  have hconf_iff : (db.appointments.any (fun a =>
      decide (a.doctor_id = d) && !decide (a.status = AppointmentStatus.cancelled) &&
      appointment_overlaps a (D * 1440 + σ) (D * 1440 + σ + 60)) = true) ↔
      (∃ a ∈ db.appointments, a.doctor_id = d ∧
        a.start_time < D * 1440 + σ + 60 ∧ D * 1440 + σ < a.end_time) := by
    rw [List.any_eq_true]
    constructor
    · rintro ⟨a, hamem, hpred⟩
      simp only [Bool.and_eq_true, decide_eq_true_eq, Bool.not_eq_true',
        decide_eq_false_iff_not] at hpred
      obtain ⟨⟨had, hnc⟩, hov⟩ := hpred
      obtain ⟨_, hne, hge2, hlt2⟩ := happts a hamem had
      have h := (appointment_overlaps_iff_halfopen a _ _ hne (by omega)).mp hov
      exact ⟨a, hamem, had, h.1, h.2⟩
    · rintro ⟨a, hamem, had, h1, h2⟩
      obtain ⟨hnc, hne, hge2, hlt2⟩ := happts a hamem had
      refine ⟨a, hamem, ?_⟩
      simp only [Bool.and_eq_true, decide_eq_true_eq, Bool.not_eq_true',
        decide_eq_false_iff_not]
      exact ⟨⟨had, hnc⟩, (appointment_overlaps_iff_halfopen a _ _ hne (by omega)).mpr ⟨h1, h2⟩⟩
  by_cases hov : ∃ a ∈ db.appointments, a.doctor_id = d ∧
      a.start_time < D * 1440 + σ + 60 ∧ D * 1440 + σ < a.end_time
  · have hL : is_time_slot_available db d (D * 1440 + σ) (D * 1440 + σ + 60) = some false := by
      have h := hconf_iff.mpr hov
      simp [is_time_slot_available, h]
    rw [hslots]
    refine iff_of_false (by simp [hL]) ?_
    intro hmem
    obtain ⟨k2, hk1, hk2, hk3, hk4⟩ := gen_slots_sound _ _ _ _ _ _ _ hmem
    have hk4n : ((db.appointments.filter (fun a =>
        decide (a.doctor_id = d) &&
        decide (D * 1440 ≤ a.start_time) &&
        decide (a.start_time < D * 1440 + 1440))).map
          (fun a => (timeOfDay a.start_time, timeOfDay a.end_time))).any
            (fun b => decide (σ < b.2) && decide (b.1 < σ + 60)) = false := by
      simpa using hk4
    exact absurd (hbooked_iff.mpr hov) (by simp [hk4n])
  · have hAny : (db.appointments.any (fun a =>
        decide (a.doctor_id = d) && !decide (a.status = AppointmentStatus.cancelled) &&
        appointment_overlaps a (D * 1440 + σ) (D * 1440 + σ + 60)) = false) := by
      rw [← Bool.not_eq_true]
      intro hcon
      exact hov (hconf_iff.mp hcon)
    have hbooked_false : ((db.appointments.filter (fun a =>
        decide (a.doctor_id = d) &&
        decide (D * 1440 ≤ a.start_time) &&
        decide (a.start_time < D * 1440 + 1440))).map
          (fun a => (timeOfDay a.start_time, timeOfDay a.end_time))).any
            (fun b => decide (σ < b.2) && decide (b.1 < σ + 60)) = false := by
      rw [← Bool.not_eq_true]
      intro hcon
      exact hov (hbooked_iff.mp hcon)
    rw [hslots]
    by_cases hend : wh.end_time < σ + 60
    · have hL : is_time_slot_available db d (D * 1440 + σ) (D * 1440 + σ + 60) = some false := by
        simp only [is_time_slot_available, hAny, Bool.false_eq_true, if_false,
          hwday, hfind, htods, htode]
        rw [if_pos (Or.inr hend)]
      refine iff_of_false (by simp [hL]) ?_
      intro hmem
      obtain ⟨k2, hk1, hk2, hk3, _⟩ := gen_slots_sound _ _ _ _ _ _ _ hmem
      simp only at hk1 hk2 hk3
      omega
    · have hL : is_time_slot_available db d (D * 1440 + σ) (D * 1440 + σ + 60) = some true := by
        simp only [is_time_slot_available, hAny, Bool.false_eq_true, if_false,
          hwday, hfind, htods, htode]
        rw [if_neg (by omega : ¬ (σ < wh.start_time ∨ wh.end_time < σ + 60))]
        rw [break_check_of_no_break wh _ _ hnb]
      refine iff_of_true hL ?_
      have hguard : break_skip_guard wh.has_break wh.break_start wh.break_end
          (wh.start_time + 60 * k, wh.start_time + 60 * k + 60) = false := by
        simp [break_skip_guard, hnb]
      have hbf : ((db.appointments.filter (fun a =>
          decide (a.doctor_id = d) &&
          decide (D * 1440 ≤ a.start_time) &&
          decide (a.start_time < D * 1440 + 1440))).map
            (fun a => (timeOfDay a.start_time, timeOfDay a.end_time))).any
              (fun b => decide (wh.start_time + 60 * k < b.2) &&
                decide (b.1 < wh.start_time + 60 * k + 60)) = false := by
        rw [← hσdef]
        exact hbooked_false
      have h := gen_slots_complete wh.end_time wh.has_break wh.break_start wh.break_end
        ((db.appointments.filter (fun a =>
            decide (a.doctor_id = d) &&
            decide (D * 1440 ≤ a.start_time) &&
            decide (a.start_time < D * 1440 + 1440))).map
          (fun a => (timeOfDay a.start_time, timeOfDay a.end_time)))
        k wh.start_time (by omega) hguard hbf
      rw [← hσdef] at h
      exact h

/-- C1 witness: on the break-free fixture the equivalence holds for the
first aligned slot of the window, with both sides true. -/
theorem C1_witness :
    (is_time_slot_available db_free 1 540 600 = some true ↔
      ((540, 600) : Nat × Nat) ∈ get_available_slots db_free 1 0) := by
  have h := C1_admission_slot_equivalence db_free 1 0 0 wh_plain rfl rfl (by decide)
    (by intro a ha; simp [db_free] at ha)
  simpa [wh_plain] using h

end Doctym
